import Mathlib

/-!
Shallow embedding of the redirect-chain analyzer in `src/main.ts` and proofs
about it.

The source file's region between the `ENHANCED AKAMAI DETECTION LOGIC` banner
and the `CORE ANALYSIS LOGIC` banner is stored with a transposed block: the
signature of `getServerName` together with its first statements (computing
`lowerHeaders` and `xCache`) appears at lines 109-118, after the function body
at lines 70-107.  Reassembling the two blocks in the only way that parses gives
the classifier embedded below: the rule chain is
  (1) x-cache hit markers, (2) Akamai debug headers with a TCP_MISS carve-out,
  (3) `Server` header substrings, (4) bmw/mini hostname heuristics,
  (5) `Server: apache`, (6) server-timing, then the IP-range fallback.

External collaborators (the WHATWG URL parser and `dns.lookup`) are modelled as
oracle functions bundled in `JsEnv`; `none` models a thrown exception or a
rejected promise.  The process-wide `ipCache` map is threaded explicitly.
-/

/-- JavaScript `String.prototype.includes` restricted to the ASCII header
values this program inspects: prefix test on character lists. -/
def charsPrefixOf : List Char → List Char → Bool
  | [], _ => true
  | _ :: _, [] => false
  | a :: as, b :: bs => a == b && charsPrefixOf as bs

/-- Occurrence of `pat` anywhere in a character list. -/
def charsIncl (pat : List Char) : List Char → Bool
  | [] => charsPrefixOf pat []
  | c :: cs => charsPrefixOf pat (c :: cs) || charsIncl pat cs

/-- JavaScript `s.includes(pat)`. -/
def strIncludes (s pat : String) : Bool := charsIncl pat.data s.data

/-- JavaScript `s.toLowerCase()` (ASCII, which covers every header name and
value the classifier compares). -/
def strToLower (s : String) : String := String.mk (s.data.map Char.toLower)

/-- Truthiness of a JavaScript string read from an object: `undefined` and the
empty string are falsy. -/
def truthy : Option String → Bool
  | none => false
  | some v => v != ""

/-- Header entries in object order, as produced by `Object.entries`. -/
abbrev Headers := List (String × String)

/-- Object access `obj[k]`: with `Object.fromEntries`, a later entry for the
same key overwrites an earlier one, so the last match wins. -/
def getHeader (hs : Headers) (k : String) : Option String :=
  (hs.reverse.find? (fun kv => kv.1 == k)).map (fun kv => kv.2)

/-- JavaScript `k in obj`. -/
def hasHeader (hs : Headers) (k : String) : Bool :=
  hs.any (fun kv => kv.1 == k)

-- The `ServerType` constant object of the source.
namespace ServerType

def AKAMAI : String := "Akamai"

def AEM : String := "Apache (AEM)"

def UNKNOWN : String := "Unknown"

end ServerType

/-- The `AKAMAI_IP_RANGES` constant of the source. -/
def AKAMAI_IP_RANGES : List String := ["23.192.0.0/11", "104.64.0.0/10", "184.24.0.0/13"]

/-- Splitting a character list on a separator; mirrors `String.prototype.split`
with a single-character separator. -/
def splitOnChar (sep : Char) : List Char → List (List Char)
  | [] => [[]]
  | c :: cs =>
      let r := splitOnChar sep cs
      if c == sep then [] :: r
      else (c :: r.headD []) :: r.tail

/-- Decimal parse of a digit string (used for IPv4 octets and prefix lengths). -/
def charsToNat? (cs : List Char) : Option Nat :=
  if cs.isEmpty then none
  else if cs.all Char.isDigit then
    some (cs.foldl (fun n c => n * 10 + (c.toNat - 48)) 0)
  else none

/-- Dotted-quad IPv4 address as a 32-bit number; `none` when the string is not
an IPv4 address (an IPv6 address or garbage never matches the configured
IPv4 CIDR blocks, mirroring the `ip-range-check` library). -/
def parseIPv4 (s : String) : Option Nat :=
  match (splitOnChar ('.' : Char) s.data).map charsToNat? with
  | [some a, some b, some c, some d] =>
      if a ≤ 255 && b ≤ 255 && c ≤ 255 && d ≤ 255 then
        some (((a * 256 + b) * 256 + c) * 256 + d)
      else none
  | _ => none

/-- The `ipRangeCheck(ip, cidr)` library call for an IPv4 CIDR block: the two
addresses agree on the first `k` bits. -/
def ipRangeCheck (ip : String) (cidr : String) : Bool :=
  match splitOnChar ('/' : Char) cidr.data with
  | [baseChars, bitsChars] =>
      match parseIPv4 ip, parseIPv4 (String.mk baseChars), charsToNat? bitsChars with
      | some i, some b, some k =>
          if k ≤ 32 then i / 2 ^ (32 - k) == b / 2 ^ (32 - k) else false
      | _, _, _ => false
  | _ => false

/-- The `isAkamaiIp` helper of the source; `!ip` is truthy for both `null` and
the empty string. -/
def isAkamaiIp (ip : Option String) : Bool :=
  match ip with
  | none => false
  | some s =>
      if s == "" then false
      else AKAMAI_IP_RANGES.any (fun cidr => ipRangeCheck s cidr)

/-- Oracles for the two external collaborators used by the helpers:
`hostnameOf url` models `new URL(url).hostname` (`none` when the constructor
throws on an unparseable URL), and `dnsLookup host` models
`dns.lookup(host)` (`none` when the promise rejects). -/
structure JsEnv where
  hostnameOf : String → Option String
  dnsLookup : String → Option String

/-- The process-wide `ipCache` map, hostname to IP address. -/
abbrev IpCache := List (String × String)

/-- Map lookup `ipCache.get(h)`; entries added later shadow older ones because
`cacheSet` conses. -/
def cacheGet (c : IpCache) (h : String) : Option String :=
  (c.find? (fun kv => kv.1 == h)).map (fun kv => kv.2)

/-- Map membership `ipCache.has(h)`. -/
def cacheHas (c : IpCache) (h : String) : Bool :=
  (cacheGet c h).isSome

/-- Map update `ipCache.set(h, v)`. -/
def cacheSet (c : IpCache) (h v : String) : IpCache := (h, v) :: c

/-- Return value of `resolveIp` together with the cache it leaves behind and
the list of hostnames for which a `dns.lookup` call was actually issued. -/
structure ResolveOut where
  ip : Option String
  cache : IpCache
  lookups : List String
  deriving DecidableEq, Repr

/-- The `resolveIp` helper of the source: URL-parse failures and empty
hostnames yield `null`; a cached hostname is answered without DNS; otherwise
one `dns.lookup` is issued, and only a successful result is stored. -/
def resolveIp (env : JsEnv) (url : String) (cache : IpCache) : ResolveOut :=
  match env.hostnameOf url with
  | none => ⟨none, cache, []⟩
  | some hostname =>
      if hostname == "" then ⟨none, cache, []⟩
      else if cacheHas cache hostname then ⟨cacheGet cache hostname, cache, []⟩
      else
        match env.dnsLookup hostname with
        | none => ⟨none, cache, [hostname]⟩
        | some address => ⟨some address, cacheSet cache hostname address, [hostname]⟩

/-- Lowercasing of header names, `Object.fromEntries(Object.entries(headers).map(...))`. -/
def lowerHeadersOf (headers : Headers) : Headers :=
  headers.map (fun kv => (strToLower kv.1, kv.2))

/-- The `xCache` binding: `lowerHeaders["x-cache"] || ""`. -/
def xCacheOf (lh : Headers) : String :=
  (getHeader lh "x-cache").getD ""

/-- Condition of rule 1: the `x-cache` value carries an explicit cache-hit
marker (`TCP_HIT`, `TCP_MEM_HIT` or `TCP_REFRESH_HIT`). -/
def hitMarker (x : String) : Bool :=
  strIncludes x "TCP_HIT" || strIncludes x "TCP_MEM_HIT" || strIncludes x "TCP_REFRESH_HIT"

/-- Explicit cache-miss marker, the carve-out condition `xCache.includes("TCP_MISS")`. -/
def missMarker (x : String) : Bool :=
  strIncludes x "TCP_MISS"

/-- Rule 1 of the classifier (block A, x-cache hit markers). -/
def rule1 (x : String) : Option String :=
  if hitMarker x then some ServerType.AKAMAI else none

/-- Presence (truthiness) of one of the Akamai debug headers checked by block B. -/
def hasAkamaiDebug (lh : Headers) : Bool :=
  truthy (getHeader lh "x-akamai-request-id") || truthy (getHeader lh "x-akamai-staging")
    || truthy (getHeader lh "akamai-mon-ibit")

/-- Rule 2 of the classifier (block B): Akamai debug headers assert Akamai
unless `x-cache` explicitly says `TCP_MISS`. -/
def rule2 (lh : Headers) (x : String) : Option String :=
  if hasAkamaiDebug lh && !missMarker x then some ServerType.AKAMAI else none

/-- The `serverValue` binding: `lowerHeaders["server"]?.toLowerCase() || ""`. -/
def serverValueOf (lh : Headers) : String :=
  ((getHeader lh "server").map strToLower).getD ""

/-- Rule 3 of the classifier (block C): `Server` header substrings `akamai`
and `ghost`. -/
def rule3 (sv : String) : Option String :=
  if strIncludes sv "akamai" || strIncludes sv "ghost" then some ServerType.AKAMAI else none

/-- Guard of the origin-detection block: a non-empty hostname containing
`bmw` or `mini` after lowercasing. -/
def isBmwMini (hostname : String) : Bool :=
  hostname != "" && (strIncludes (strToLower hostname) "bmw" || strIncludes (strToLower hostname) "mini")

/-- Rule 4 of the classifier (ORIGIN detection, bmw/mini hostnames): a
dispatcher or instance header asserts AEM, else `cache-control` with no
`x-cache` value at all asserts AEM. -/
def rule4 (lh : Headers) (hostname : String) (x : String) : Option String :=
  if isBmwMini hostname then
    if hasHeader lh "x-dispatcher" || hasHeader lh "x-aem-instance" then some ServerType.AEM
    else if hasHeader lh "cache-control" && x == "" then some ServerType.AEM
    else none
  else none

/-- Rule 5 of the classifier: `Server` header containing `apache`. -/
def rule5 (sv : String) : Option String :=
  if strIncludes sv "apache" then some ServerType.AEM else none

/-- The `serverTiming` binding: `lowerHeaders["server-timing"] || ""`. -/
def serverTimingOf (lh : Headers) : String :=
  (getHeader lh "server-timing").getD ""

/-- First fallback of block 3: a `server-timing` entry asserting a CDN cache
hit. -/
def rule6timing (st : String) : Option String :=
  if strIncludes st "cdn-cache; desc=HIT" then some ServerType.AKAMAI else none

/-- Result of one `getServerName` call: `res = none` models an exception
escaping the function (only the uncaught `new URL(url)` at the hostname rule
can throw; `resolveIp` catches its own errors). -/
structure ClassifyOut where
  res : Option String
  cache : IpCache
  lookups : List String
  deriving DecidableEq, Repr

/-- The `getServerName` classifier of the source (blocks reassembled as
described in the header comment), with the rule chain made explicit: first
match wins, and the `statusCode` parameter is declared but never read. -/
def getServerName (env : JsEnv) (headers : Headers) (url : String) (statusCode : Nat)
    (cache : IpCache) : ClassifyOut :=
  let lh := lowerHeadersOf headers
  let x := xCacheOf lh
  match rule1 x with
  | some r => ⟨some r, cache, []⟩
  | none =>
  match rule2 lh x with
  | some r => ⟨some r, cache, []⟩
  | none =>
  let sv := serverValueOf lh
  match rule3 sv with
  | some r => ⟨some r, cache, []⟩
  | none =>
  match env.hostnameOf url with
  | none => ⟨none, cache, []⟩
  | some hostname =>
  match rule4 lh hostname x with
  | some r => ⟨some r, cache, []⟩
  | none =>
  match rule5 sv with
  | some r => ⟨some r, cache, []⟩
  | none =>
  match rule6timing (serverTimingOf lh) with
  | some r => ⟨some r, cache, []⟩
  | none =>
  let out := resolveIp env url cache
  if isAkamaiIp out.ip && !missMarker x then ⟨some ServerType.AKAMAI, out.cache, out.lookups⟩
  else ⟨some ServerType.UNKNOWN, out.cache, out.lookups⟩

/-- Redirect test on a navigation status code (3xx), used only by the spec's
wording of rule 1, not by the code. -/
def isRedirect (status : Nat) : Bool :=
  300 ≤ status && status < 400

/-- Modelled from the spec, for comparison with `rule1`: "values containing a
cache-hit marker ⇒ CDN, unless the navigation status is a redirect and the
value explicitly marks a cache miss, in which case continue to next rule". -/
def specRule1 (x : String) (statusCode : Nat) : Option String :=
  if hitMarker x && !(isRedirect statusCode && missMarker x) then some ServerType.AKAMAI
  else none

/-- Modelled from the spec: the classifier as the spec's sentence for rule 1
describes it, identical to `getServerName` except that rule 1 applies the
redirect-and-miss carve-out and so consults the status code. -/
def specGetServerName (env : JsEnv) (headers : Headers) (url : String) (statusCode : Nat)
    (cache : IpCache) : ClassifyOut :=
  let lh := lowerHeadersOf headers
  let x := xCacheOf lh
  match specRule1 x statusCode with
  | some r => ⟨some r, cache, []⟩
  | none =>
  match rule2 lh x with
  | some r => ⟨some r, cache, []⟩
  | none =>
  let sv := serverValueOf lh
  match rule3 sv with
  | some r => ⟨some r, cache, []⟩
  | none =>
  match env.hostnameOf url with
  | none => ⟨none, cache, []⟩
  | some hostname =>
  match rule4 lh hostname x with
  | some r => ⟨some r, cache, []⟩
  | none =>
  match rule5 sv with
  | some r => ⟨some r, cache, []⟩
  | none =>
  match rule6timing (serverTimingOf lh) with
  | some r => ⟨some r, cache, []⟩
  | none =>
  let out := resolveIp env url cache
  if isAkamaiIp out.ip && !missMarker x then ⟨some ServerType.AKAMAI, out.cache, out.lookups⟩
  else ⟨some ServerType.UNKNOWN, out.cache, out.lookups⟩

/-- JavaScript `x || null` on a possibly-undefined string field: `undefined`
and the empty string both collapse to `null`. -/
def jsOrNullStr (x : Option String) : Option String :=
  match x with
  | none => none
  | some v => if v == "" then none else some v

/-- JavaScript `x || null` on a possibly-undefined number field: `undefined`
and `0` both collapse to `null`. -/
def jsOrNullNat (x : Option Nat) : Option Nat :=
  match x with
  | none => none
  | some v => if v == 0 then none else some v

/-- JavaScript `x || d` on a possibly-undefined string with a string default. -/
def jsOrDefault (x : Option String) (d : String) : String :=
  match x with
  | none => d
  | some v => if v == "" then d else v

/-- One entry of `redirectChain`; the `Hop` interface of the source, with the
float `timestamp` in abstract clock units. -/
structure Hop where
  url : String
  status : Nat
  server : String
  timestamp : Nat
  deriving DecidableEq, Repr

/-- The `AnalysisResult` interface of the source. -/
structure AnalysisResult where
  originalURL : String
  finalURL : Option String
  sourceServer : Option String
  targetServer : Option String
  finalStatus : Option Nat
  redirectChain : List Hop
  totalTime : Nat
  error : Option String
  deriving DecidableEq, Repr

/-- Kind of exception thrown inside the `try` block of
`fetchUrlWithPlaywright`: a Playwright `TimeoutError`, another `Error` with a
message, or a non-`Error` throw. -/
inductive NavError where
  | timeoutKind
  | jsError (message : String)
  | nonError
  deriving DecidableEq, Repr

/-- The `errorMessage` normalization of the catch block. -/
def errMessage : NavError → String
  | NavError.timeoutKind => "Timeout"
  | NavError.jsError m => m
  | NavError.nonError => "Error"

/-- Abstract outcome of one navigation, supplied by the browser collaborator:
either `browser.newContext` itself threw (no page, no hops), or `page.goto`
resolved with the hops the response listener captured and the final
`page.url()`, or `page.goto` threw after capturing some prefix of hops. -/
inductive NavOutcome where
  | contextFailed (e : NavError)
  | navigated (hops : List Hop) (pageUrl : String)
  | navFailed (hops : List Hop) (e : NavError)
  deriving DecidableEq, Repr

/-- Value of the local `redirectChain` array at the moment control leaves the
`try` block. -/
def hopsOf : NavOutcome → List Hop
  | NavOutcome.contextFailed _ => []
  | NavOutcome.navigated hops _ => hops
  | NavOutcome.navFailed hops _ => hops

/-- Return value of one `fetchUrlWithPlaywright` call plus the number of times
the `finally` block closed the browser context on that path. -/
structure FetchOut where
  result : AnalysisResult
  contextCloses : Nat
  deriving DecidableEq, Repr

/-- The `fetchUrlWithPlaywright` function of the source over an abstract
navigation outcome, with `totalTime` the elapsed clock value the two
`Date.now()` differences produce.  The `finally` block closes the context
exactly when `browser.newContext` succeeded, i.e. on every path except
`contextFailed`. -/
def fetchUrlWithPlaywright (url : String) (o : NavOutcome) (totalTime : Nat) : FetchOut :=
  match o with
  | NavOutcome.navigated hops pageUrl =>
      let finalHop := hops.getLast?
      { result :=
          { originalURL := url
            finalURL := some pageUrl
            sourceServer := jsOrNullStr (hops.head?.map Hop.server)
            targetServer := jsOrNullStr (finalHop.map Hop.server)
            finalStatus := jsOrNullNat (finalHop.map Hop.status)
            redirectChain := hops
            totalTime := totalTime
            error := none }
        contextCloses := 1 }
  | NavOutcome.navFailed hops e =>
      let finalHop := hops.getLast?
      { result :=
          { originalURL := url
            finalURL := some (jsOrDefault (finalHop.map Hop.url) "N/A")
            sourceServer := jsOrNullStr (hops.head?.map Hop.server)
            targetServer := jsOrNullStr (finalHop.map Hop.server)
            finalStatus := jsOrNullNat (finalHop.map Hop.status)
            redirectChain := hops
            totalTime := totalTime
            error := some (errMessage e) }
        contextCloses := 1 }
  | NavOutcome.contextFailed e =>
      { result :=
          { originalURL := url
            finalURL := some (jsOrDefault none "N/A")
            sourceServer := none
            targetServer := none
            finalStatus := none
            redirectChain := []
            totalTime := totalTime
            error := some (errMessage e) }
        contextCloses := 0 }

/-- The `BATCH_SIZE` constant of the source. -/
def BATCH_SIZE : Nat := 5

/-- The `DELAY_MS` constant of the source. -/
def DELAY_MS : Nat := 2000

/-- Settlement of one `Promise.all` window: the window's promises settle in
an arbitrary completion order, and each settling promise stores its value at
the promise's original index; slots start unfilled.  `Promise.all` resolves
with this index-addressed array, so the output position of a result is fixed
by its input position, not by when it settled. -/
def promiseAllIndexed (results : List AnalysisResult) (order : List Nat) :
    List (Option AnalysisResult) :=
  order.foldl
    (fun acc j =>
      match results[j]? with
      | some r => acc.set j (some r)
      | none => acc)
    (List.replicate results.length none)

/-- The batch loop of `main`: slice off `BATCH_SIZE` URLs, run them through
one `Promise.all` window (whose completion order is given by `orders`), append
the window's results to `allResults`, and continue with the rest. -/
def runBatches (nav : String → AnalysisResult) (orders : List String → List Nat)
    (urls : List String) : List (Option AnalysisResult) :=
  if h : urls = [] then []
  else
    promiseAllIndexed ((urls.take BATCH_SIZE).map nav) (orders (urls.take BATCH_SIZE))
      ++ runBatches nav orders (urls.drop BATCH_SIZE)
termination_by urls.length
decreasing_by
  simp only [List.length_drop, BATCH_SIZE]
  have : urls.length ≠ 0 := fun hl => h (List.eq_nil_of_length_eq_zero hl)
  omega

/-- Observable scheduling events of the batch loop: one entry per executed
window (carrying its URL slice) and one entry per inter-batch sleep. -/
inductive BatchEvent where
  | window (batch : List String)
  | delay (ms : Nat)
  deriving DecidableEq, Repr

/-- Event trace of the batch loop of `main`: each iteration executes one
window of at most `BATCH_SIZE` URLs, then sleeps for `DELAY_MS` exactly when
more URLs remain (`i + BATCH_SIZE < urls.length`). -/
def scheduleEvents (urls : List String) : List BatchEvent :=
  if h : urls = [] then []
  else
    BatchEvent.window (urls.take BATCH_SIZE) ::
      (if BATCH_SIZE < urls.length then
        BatchEvent.delay DELAY_MS :: scheduleEvents (urls.drop BATCH_SIZE)
      else scheduleEvents (urls.drop BATCH_SIZE))
termination_by urls.length
decreasing_by
  all_goals simp only [List.length_drop, BATCH_SIZE]
  all_goals
    have : urls.length ≠ 0 := fun hl => h (List.eq_nil_of_length_eq_zero hl)
  all_goals omega

/-- Windows of an event trace, in execution order. -/
def windowsOf (es : List BatchEvent) : List (List String) :=
  es.filterMap (fun e =>
    match e with
    | BatchEvent.window b => some b
    | BatchEvent.delay _ => none)

/-- Number of inter-batch sleeps in an event trace. -/
def delayCount (es : List BatchEvent) : Nat :=
  es.countP (fun e =>
    match e with
    | BatchEvent.delay _ => true
    | BatchEvent.window _ => false)

/-- Oracle instance: every URL parses to the hostname `example.com` (no `bmw`
or `mini` substring) and every DNS lookup fails. -/
def envExample : JsEnv := ⟨fun _ => some "example.com", fun _ => none⟩

/-- Oracle instance: every URL parses to `cdn.example.com` and DNS resolves it
to `23.200.10.5`, an address inside the configured block `23.192.0.0/11`. -/
def envAkamai : JsEnv := ⟨fun _ => some "cdn.example.com", fun _ => some "23.200.10.5"⟩

/-- Oracle instance for unparseable URLs: the WHATWG `URL` constructor throws
(for example on the input `"::"`, which has no scheme), and DNS is never
reached. -/
def envUnparseable : JsEnv := ⟨fun _ => none, fun _ => none⟩

/-- Headers of the spec's concrete scenario B. -/
def headersB : Headers := [("x-cache", "TCP_MISS"), ("x-akamai-request-id", "abc")]

/-- Headers whose cache-status value carries both an explicit hit marker and
an explicit miss marker, as an edge serving a refreshed redirect can emit. -/
def headersHitMiss : Headers := [("x-cache", "TCP_MISS, TCP_HIT")]

/-- Conjunction stating that none of the rules before the IP-range fallback
produced a verdict, so evaluation of `getServerName` reaches the fallback. -/
def earlierRulesFallThrough (lh : Headers) (host : String) : Prop :=
  rule1 (xCacheOf lh) = none ∧ rule2 lh (xCacheOf lh) = none ∧
    rule3 (serverValueOf lh) = none ∧ rule4 lh host (xCacheOf lh) = none ∧
    rule5 (serverValueOf lh) = none ∧ rule6timing (serverTimingOf lh) = none

instance (lh : Headers) (host : String) : Decidable (earlierRulesFallThrough lh host) := by
  unfold earlierRulesFallThrough; infer_instance

/-- Seven input URLs for the concrete batch scenario D. -/
def urls7 : List String :=
  ["https://u1.example/", "https://u2.example/", "https://u3.example/",
   "https://u4.example/", "https://u5.example/", "https://u6.example/", "https://u7.example/"]

/-- C1.  The claim's carve-out does not exist in the code: for the header
mapping `{"x-cache": "TCP_MISS, TCP_HIT"}` and the redirect status 301, the
status is a redirect and the value explicitly marks a cache miss, yet rule 1
still decides (it returns CDN), so classification returns CDN instead of
continuing to the next rule — the spec-worded classifier (`specGetServerName`)
returns UNKNOWN on the same input. -/
theorem c1_counterexample :
    missMarker (xCacheOf (lowerHeadersOf headersHitMiss)) = true ∧
    isRedirect 301 = true ∧
    rule1 (xCacheOf (lowerHeadersOf headersHitMiss)) = some ServerType.AKAMAI ∧
    specRule1 (xCacheOf (lowerHeadersOf headersHitMiss)) 301 = none ∧
    (getServerName envExample headersHitMiss "https://example.com/" 301 []).res
      = some ServerType.AKAMAI ∧
    (specGetServerName envExample headersHitMiss "https://example.com/" 301 []).res
      = some ServerType.UNKNOWN := by
  decide

/-- C1 (amended).  Rule 1 has no carve-out: whenever the case-insensitive
`x-cache` value contains an explicit cache-hit marker, `classify` returns CDN
for every URL, every status code (redirect or not) and every cache state, even
when the value also marks a miss.  In particular scenario A holds: headers
`{"x-cache": "TCP_HIT"}` with status 301 classify as CDN. -/
theorem c1_hit_marker_forces_cdn (env : JsEnv) (headers : Headers) (url : String)
    (statusCode : Nat) (cache : IpCache)
    (h : hitMarker (xCacheOf (lowerHeadersOf headers)) = true) :
    (getServerName env headers url statusCode cache).res = some ServerType.AKAMAI := by
  unfold getServerName rule1
  simp [h]

/-- C1 (witness).  Scenario A: headers `{"x-cache": "TCP_HIT"}`, status 301,
classified as CDN, via `c1_hit_marker_forces_cdn`. -/
theorem c1_hit_marker_forces_cdn_witness :
    hitMarker (xCacheOf (lowerHeadersOf [("x-cache", "TCP_HIT")])) = true ∧
    (getServerName envExample [("x-cache", "TCP_HIT")] "https://example.com/" 301 []).res
      = some ServerType.AKAMAI :=
  ⟨by decide, c1_hit_marker_forces_cdn envExample [("x-cache", "TCP_HIT")]
    "https://example.com/" 301 [] (by decide)⟩

/-- C2.  Whenever the cache-status value explicitly marks a miss, the vendor
debug headers of rule 2 are not sufficient: rule 2 yields no verdict, whatever
debug headers are present. -/
theorem c2_miss_blocks_rule2 (headers : Headers)
    (hmiss : missMarker (xCacheOf (lowerHeadersOf headers)) = true) :
    rule2 (lowerHeadersOf headers) (xCacheOf (lowerHeadersOf headers)) = none := by
  unfold rule2
  simp [hmiss]

/-- C2 (witness).  Scenario B: headers `{"x-cache": "TCP_MISS",
"x-akamai-request-id": "abc"}` carry a debug header and a miss marker; rule 2
yields nothing (via `c2_miss_blocks_rule2`), rule 1 yields nothing either, and
the full classification with status 302 falls through to UNKNOWN rather than
returning CDN from rules 1-2. -/
theorem c2_miss_blocks_rule2_witness :
    missMarker (xCacheOf (lowerHeadersOf headersB)) = true ∧
    rule2 (lowerHeadersOf headersB) (xCacheOf (lowerHeadersOf headersB)) = none ∧
    hasAkamaiDebug (lowerHeadersOf headersB) = true ∧
    rule1 (xCacheOf (lowerHeadersOf headersB)) = none ∧
    (getServerName envExample headersB "https://example.com/" 302 []).res
      = some ServerType.UNKNOWN :=
  ⟨by decide, c2_miss_blocks_rule2 headersB (by decide), by decide, by decide, by decide⟩

/-- C3.  The classifier's verdict is independent of the status code: the
`statusCode` parameter of `getServerName` is never read, so for any two status
codes the whole output (verdict, cache, DNS traffic) is identical. -/
theorem c3_status_code_never_read (env : JsEnv) (headers : Headers) (url : String)
    (s1 s2 : Nat) (cache : IpCache) :
    getServerName env headers url s1 cache = getServerName env headers url s2 cache := rfl

/-- C6.  On every navigation failure `fetchUrlWithPlaywright` still returns an
`AnalysisResult`: the failure descriptor is set to the normalized message
(`"Timeout"` exactly for the Playwright timeout kind), the hop sequence equals
exactly the hops captured before the failure, and the context created for the
navigation is closed exactly once on the failure path as well as on the
success path. -/
theorem c6_failure_preserves_hops_and_closes (url pageUrl : String) (hops : List Hop)
    (e : NavError) (t tS : Nat) :
    (fetchUrlWithPlaywright url (NavOutcome.navFailed hops e) t).result.error
      = some (errMessage e) ∧
    (fetchUrlWithPlaywright url (NavOutcome.navFailed hops NavError.timeoutKind) t).result.error
      = some "Timeout" ∧
    (fetchUrlWithPlaywright url (NavOutcome.navFailed hops e) t).result.redirectChain = hops ∧
    (fetchUrlWithPlaywright url (NavOutcome.navFailed hops e) t).result.originalURL = url ∧
    (fetchUrlWithPlaywright url (NavOutcome.navFailed hops e) t).contextCloses = 1 ∧
    (fetchUrlWithPlaywright url (NavOutcome.navigated hops pageUrl) tS).contextCloses = 1 :=
  ⟨rfl, rfl, rfl, rfl, rfl, rfl⟩

/-- C8.  With zero hops captured, the failure path does not leave `finalURL`
absent: the `|| "N/A"` default makes it the present string `"N/A"`, refuting
the claim at the concrete timeout-with-no-response input. -/
theorem c8_counterexample :
    (fetchUrlWithPlaywright "https://no-response.example/"
        (NavOutcome.navFailed [] NavError.timeoutKind) 45).result.redirectChain = [] ∧
    (fetchUrlWithPlaywright "https://no-response.example/"
        (NavOutcome.navFailed [] NavError.timeoutKind) 45).result.finalURL = some "N/A" ∧
    (fetchUrlWithPlaywright "https://no-response.example/"
        (NavOutcome.navFailed [] NavError.timeoutKind) 45).result.finalURL ≠ none := by
  decide

/-- C8 (amended).  For every navigation that captures zero hops (goto failed
before any navigation response, or the context could not even be created), the
function still returns a well-formed `AnalysisResult` whose hop sequence is
empty and whose `finalURL` is the placeholder string `"N/A"` rather than a
genuine final URL, with the failure descriptor set. -/
theorem c8_zero_hops_placeholder (url : String) (e : NavError) (t : Nat) :
    ((fetchUrlWithPlaywright url (NavOutcome.navFailed [] e) t).result.redirectChain = [] ∧
     (fetchUrlWithPlaywright url (NavOutcome.navFailed [] e) t).result.finalURL = some "N/A" ∧
     (fetchUrlWithPlaywright url (NavOutcome.navFailed [] e) t).result.error
       = some (errMessage e)) ∧
    ((fetchUrlWithPlaywright url (NavOutcome.contextFailed e) t).result.redirectChain = [] ∧
     (fetchUrlWithPlaywright url (NavOutcome.contextFailed e) t).result.finalURL = some "N/A" ∧
     (fetchUrlWithPlaywright url (NavOutcome.contextFailed e) t).result.error
       = some (errMessage e)) :=
  ⟨⟨rfl, rfl, rfl⟩, ⟨rfl, rfl, rfl⟩⟩

/-- Evaluation of `x || null` on a present, non-empty string: the value is
kept. -/
theorem jsOrNullStr_of_ne_empty (s : String) (h : s ≠ "") : jsOrNullStr (some s) = some s := by
  simp [jsOrNullStr, h]

/-- Range of rule 1: it only ever asserts Akamai. -/
theorem rule1_range (x : String) (r : String) (h : rule1 x = some r) :
    r = ServerType.AKAMAI := by
  unfold rule1 at h; split at h <;> simp_all

/-- Range of rule 2: it only ever asserts Akamai. -/
theorem rule2_range (lh : Headers) (x : String) (r : String) (h : rule2 lh x = some r) :
    r = ServerType.AKAMAI := by
  unfold rule2 at h; split at h <;> simp_all

/-- Range of rule 3: it only ever asserts Akamai. -/
theorem rule3_range (sv : String) (r : String) (h : rule3 sv = some r) :
    r = ServerType.AKAMAI := by
  unfold rule3 at h; split at h <;> simp_all

/-- Range of rule 4: it only ever asserts AEM. -/
theorem rule4_range (lh : Headers) (hostname x : String) (r : String)
    (h : rule4 lh hostname x = some r) : r = ServerType.AEM := by
  unfold rule4 at h
  repeat' split at h
  all_goals simp_all

/-- Range of rule 5: it only ever asserts AEM. -/
theorem rule5_range (sv : String) (r : String) (h : rule5 sv = some r) :
    r = ServerType.AEM := by
  unfold rule5 at h; split at h <;> simp_all

/-- Range of the server-timing fallback: it only ever asserts Akamai. -/
theorem rule6timing_range (st : String) (r : String) (h : rule6timing st = some r) :
    r = ServerType.AKAMAI := by
  unfold rule6timing at h; split at h <;> simp_all

/-- Every verdict string `getServerName` can write into a hop is one of the
three `ServerType` constants; in particular it is never the empty string, so
the `|| null` defaults on the server fields of `AnalysisResult` never fire for
a hop built by the response listener. -/
theorem getServerName_res_mem (env : JsEnv) (headers : Headers) (url : String)
    (statusCode : Nat) (cache : IpCache) (r : String)
    (h : (getServerName env headers url statusCode cache).res = some r) :
    r = ServerType.AKAMAI ∨ r = ServerType.AEM ∨ r = ServerType.UNKNOWN := by
  simp only [getServerName] at h
  cases h1 : rule1 (xCacheOf (lowerHeadersOf headers)) with
  | some r1 =>
      simp only [h1, Option.some.injEq] at h
      exact Or.inl (h ▸ rule1_range _ _ h1)
  | none =>
  simp only [h1] at h
  cases h2 : rule2 (lowerHeadersOf headers) (xCacheOf (lowerHeadersOf headers)) with
  | some r2 =>
      simp only [h2, Option.some.injEq] at h
      exact Or.inl (h ▸ rule2_range _ _ _ h2)
  | none =>
  simp only [h2] at h
  cases h3 : rule3 (serverValueOf (lowerHeadersOf headers)) with
  | some r3 =>
      simp only [h3, Option.some.injEq] at h
      exact Or.inl (h ▸ rule3_range _ _ h3)
  | none =>
  simp only [h3] at h
  cases hh : env.hostnameOf url with
  | none => simp [hh] at h
  | some hostname =>
  simp only [hh] at h
  cases h4 : rule4 (lowerHeadersOf headers) hostname (xCacheOf (lowerHeadersOf headers)) with
  | some r4 =>
      simp only [h4, Option.some.injEq] at h
      exact Or.inr (Or.inl (h ▸ rule4_range _ _ _ _ h4))
  | none =>
  simp only [h4] at h
  cases h5 : rule5 (serverValueOf (lowerHeadersOf headers)) with
  | some r5 =>
      simp only [h5, Option.some.injEq] at h
      exact Or.inr (Or.inl (h ▸ rule5_range _ _ h5))
  | none =>
  simp only [h5] at h
  cases h6 : rule6timing (serverTimingOf (lowerHeadersOf headers)) with
  | some r6 =>
      simp only [h6, Option.some.injEq] at h
      exact Or.inl (h ▸ rule6timing_range _ _ h6)
  | none =>
  simp only [h6] at h
  split at h <;> simp only [Option.some.injEq] at h
  · exact Or.inl h.symm
  · exact Or.inr (Or.inr h.symm)

/-- C7.  For every result whose hop sequence is non-empty and whose hops carry
classifier verdicts (as every hop built by the response listener does, by
`getServerName_res_mem`), the result's source server equals the first hop's
server and the target server equals the last hop's server, on the success
path and on the failure path alike. -/
theorem c7_source_target_from_hops (url pageUrl : String) (hops : List Hop)
    (e : NavError) (t tF : Nat) (hne : hops ≠ [])
    (hsrv : ∀ h ∈ hops, h.server = ServerType.AKAMAI ∨ h.server = ServerType.AEM ∨
      h.server = ServerType.UNKNOWN) :
    (fetchUrlWithPlaywright url (NavOutcome.navigated hops pageUrl) t).result.sourceServer
        = hops.head?.map Hop.server ∧
    (fetchUrlWithPlaywright url (NavOutcome.navigated hops pageUrl) t).result.targetServer
        = hops.getLast?.map Hop.server ∧
    (fetchUrlWithPlaywright url (NavOutcome.navFailed hops e) tF).result.sourceServer
        = hops.head?.map Hop.server ∧
    (fetchUrlWithPlaywright url (NavOutcome.navFailed hops e) tF).result.targetServer
        = hops.getLast?.map Hop.server := by
  obtain ⟨h0, hops', rfl⟩ : ∃ h0 hops', hops = h0 :: hops' := by
    cases hops with
    | nil => exact absurd rfl hne
    | cons a l => exact ⟨a, l, rfl⟩
  have hhead : (h0 :: hops').head? = some h0 := rfl
  have hlast : (h0 :: hops').getLast? = some ((h0 :: hops').getLast (by simp)) :=
    List.getLast?_eq_getLast_of_ne_nil _
  have hne0 : h0.server ≠ "" := by
    rcases hsrv h0 (List.mem_cons_self _ _) with h | h | h <;> simp [h, ServerType.AKAMAI,
      ServerType.AEM, ServerType.UNKNOWN]
  have hneL : ((h0 :: hops').getLast (by simp)).server ≠ "" := by
    rcases hsrv _ (List.getLast_mem (l := h0 :: hops') (by simp)) with h | h | h <;>
      simp [h, ServerType.AKAMAI, ServerType.AEM, ServerType.UNKNOWN]
  refine ⟨?_, ?_, ?_, ?_⟩ <;>
    simp only [fetchUrlWithPlaywright, hhead, hlast, Option.map_some]
  · exact jsOrNullStr_of_ne_empty _ hne0
  · exact jsOrNullStr_of_ne_empty _ hneL
  · exact jsOrNullStr_of_ne_empty _ hne0
  · exact jsOrNullStr_of_ne_empty _ hneL

/-- C7 (witness).  A two-hop redirect chain with classifier verdicts: source
is the first hop's server, target the last hop's, on both paths. -/
theorem c7_source_target_from_hops_witness :
    letI hops : List Hop := [⟨"https://a.example/", 301, "Akamai", 1⟩,
      ⟨"https://b.example/", 200, "Unknown", 2⟩]
    hops ≠ [] ∧
    (∀ h ∈ hops, h.server = ServerType.AKAMAI ∨ h.server = ServerType.AEM ∨
      h.server = ServerType.UNKNOWN) ∧
    ((fetchUrlWithPlaywright "https://a.example/"
        (NavOutcome.navigated hops "https://b.example/") 3).result.sourceServer
      = hops.head?.map Hop.server ∧
     (fetchUrlWithPlaywright "https://a.example/"
        (NavOutcome.navigated hops "https://b.example/") 3).result.targetServer
      = hops.getLast?.map Hop.server ∧
     (fetchUrlWithPlaywright "https://a.example/"
        (NavOutcome.navFailed hops NavError.timeoutKind) 3).result.sourceServer
      = hops.head?.map Hop.server ∧
     (fetchUrlWithPlaywright "https://a.example/"
        (NavOutcome.navFailed hops NavError.timeoutKind) 3).result.targetServer
      = hops.getLast?.map Hop.server) :=
  ⟨by decide, by decide,
    c7_source_target_from_hops "https://a.example/" "https://b.example/" _
      NavError.timeoutKind 3 3 (by decide) (by decide)⟩

/-- Lookup after `ipCache.set` finds the stored address. -/
theorem cacheGet_cacheSet (c : IpCache) (h v : String) : cacheGet (cacheSet c h v) h = some v := by
  simp [cacheGet, cacheSet]

/-- C9.  A failed DNS resolution is not cached, so two calls of `resolveIp`
for the same hostname issue two DNS lookups when the resolver keeps failing
(here `example.com` with an unavailable resolver), refuting "never issue more
than one DNS lookup". -/
theorem c9_counterexample :
    ((resolveIp envExample "https://example.com/" []).lookups.length
      + (resolveIp envExample "https://example.com/"
          (resolveIp envExample "https://example.com/" []).cache).lookups.length = 2) ∧
    ¬ ((resolveIp envExample "https://example.com/" []).lookups.length
      + (resolveIp envExample "https://example.com/"
          (resolveIp envExample "https://example.com/" []).cache).lookups.length ≤ 1) := by
  decide

/-- C9 (amended).  Repeated calls of `resolveIp` for the same hostname never
issue more than one successful DNS lookup: a first call issues at most one
lookup, a successful resolution is stored keyed by hostname, and every later
call for that hostname is answered from the cache, issuing no DNS lookup at
all; only failed resolutions (which store nothing) can be retried. -/
theorem c9_memoized_after_success (env : JsEnv) (url url2 host addr : String)
    (cache : IpCache) (h1 : env.hostnameOf url = some host)
    (h2 : env.hostnameOf url2 = some host) (hh : host ≠ "")
    (hd : env.dnsLookup host = some addr) :
    (resolveIp env url cache).lookups.length ≤ 1 ∧
    cacheHas (resolveIp env url cache).cache host = true ∧
    (resolveIp env url2 (resolveIp env url cache).cache).lookups = [] ∧
    (resolveIp env url2 (resolveIp env url cache).cache).ip
      = cacheGet (resolveIp env url cache).cache host := by
  have hbe : (host == "") = false := beq_eq_false_iff_ne.mpr hh
  by_cases hc : cacheHas cache host = true
  · simp [resolveIp, h1, h2, hbe, hc]
  · have hstep : resolveIp env url cache = ⟨some addr, cacheSet cache host addr, [host]⟩ := by
      simp [resolveIp, h1, hbe, hc, hd]
    have hhas : cacheHas (cacheSet cache host addr) host = true := by
      simp [cacheHas, cacheGet_cacheSet]
    rw [hstep]
    simp [resolveIp, h2, hbe, hhas, cacheGet_cacheSet]

/-- C9 (witness).  A hostname that resolves to `23.200.10.5`: the first call
caches it, the second call answers from the cache with no DNS traffic. -/
theorem c9_memoized_after_success_witness :
    envAkamai.hostnameOf "https://cdn.example.com/" = some "cdn.example.com" ∧
    envAkamai.hostnameOf "https://cdn.example.com/a" = some "cdn.example.com" ∧
    "cdn.example.com" ≠ "" ∧
    envAkamai.dnsLookup "cdn.example.com" = some "23.200.10.5" ∧
    ((resolveIp envAkamai "https://cdn.example.com/" []).lookups.length ≤ 1 ∧
     cacheHas (resolveIp envAkamai "https://cdn.example.com/" []).cache "cdn.example.com" = true ∧
     (resolveIp envAkamai "https://cdn.example.com/a"
        (resolveIp envAkamai "https://cdn.example.com/" []).cache).lookups = [] ∧
     (resolveIp envAkamai "https://cdn.example.com/a"
        (resolveIp envAkamai "https://cdn.example.com/" []).cache).ip
       = cacheGet (resolveIp envAkamai "https://cdn.example.com/" []).cache "cdn.example.com") :=
  ⟨rfl, rfl, by decide, rfl,
    c9_memoized_after_success envAkamai "https://cdn.example.com/" "https://cdn.example.com/a"
      "cdn.example.com" "23.200.10.5" [] rfl rfl (by decide) rfl⟩

/-- Totality of the classifier on every URL whose hostname the URL parser can
extract: no exception escapes `getServerName` then, whatever the headers,
status and cache state. -/
theorem getServerName_total (env : JsEnv) (headers : Headers) (url : String)
    (statusCode : Nat) (cache : IpCache) (host : String)
    (hhost : env.hostnameOf url = some host) :
    (getServerName env headers url statusCode cache).res.isSome = true := by
  simp only [getServerName]
  cases h1 : rule1 (xCacheOf (lowerHeadersOf headers)) with
  | some r => simp [h1]
  | none =>
  simp only [h1]
  cases h2 : rule2 (lowerHeadersOf headers) (xCacheOf (lowerHeadersOf headers)) with
  | some r => simp [h2]
  | none =>
  simp only [h2]
  cases h3 : rule3 (serverValueOf (lowerHeadersOf headers)) with
  | some r => simp [h3]
  | none =>
  simp only [h3, hhost]
  cases h4 : rule4 (lowerHeadersOf headers) host (xCacheOf (lowerHeadersOf headers)) with
  | some r => simp [h4]
  | none =>
  simp only [h4]
  cases h5 : rule5 (serverValueOf (lowerHeadersOf headers)) with
  | some r => simp [h5]
  | none =>
  simp only [h5]
  cases h6 : rule6timing (serverTimingOf (lowerHeadersOf headers)) with
  | some r => simp [h6]
  | none =>
  simp only [h6]
  split <;> rfl

/-- C10.  The universally quantified "classify never aborts" is refuted by an
unparseable URL: `new URL(url)` at the hostname-convention rule is the one
call of the classifier not wrapped in try/catch, so with empty headers and the
URL `"::"` (which the WHATWG parser rejects) the exception escapes
(`res = none`), even though DNS was never consulted. -/
theorem c10_counterexample :
    (getServerName envUnparseable [] "::" 302 []).res = none := by
  decide

/-- C10 (amended).  For every URL whose hostname the URL parser extracts (in
particular every hop URL the browser reports), classification never aborts;
moreover, when every rule before the IP-range fallback falls through, an
unresolvable hostname degrades the fallback to a no-op and UNKNOWN is
returned, while a resolved IP inside the configured CDN ranges together with a
cache-status not explicitly marking a miss yields CDN. -/
theorem c10_ip_fallback (env : JsEnv) (headers : Headers) (url : String)
    (statusCode : Nat) (cache : IpCache) (host : String)
    (hhost : env.hostnameOf url = some host) :
    (getServerName env headers url statusCode cache).res ≠ none ∧
    (earlierRulesFallThrough (lowerHeadersOf headers) host →
      (((resolveIp env url cache).ip = none →
        (getServerName env headers url statusCode cache).res = some ServerType.UNKNOWN) ∧
       (isAkamaiIp (resolveIp env url cache).ip = true →
        missMarker (xCacheOf (lowerHeadersOf headers)) = false →
        (getServerName env headers url statusCode cache).res = some ServerType.AKAMAI))) := by
  constructor
  · have := getServerName_total env headers url statusCode cache host hhost
    exact fun hn => by simp [hn] at this
  · rintro ⟨f1, f2, f3, f4, f5, f6⟩
    constructor
    · intro hip
      simp only [getServerName, f1, f2, f3, hhost, f4, f5, f6, hip]
      simp [isAkamaiIp]
    · intro hak hmiss
      simp only [getServerName, f1, f2, f3, hhost, f4, f5, f6]
      simp [hak, hmiss]

/-- C10 (witness).  A resolvable CDN hostname: no rule before the fallback
matches on empty headers, DNS yields `23.200.10.5` inside `23.192.0.0/11`,
and classification returns Akamai; the hypotheses of `c10_ip_fallback` are
discharged concretely. -/
theorem c10_ip_fallback_witness :
    envAkamai.hostnameOf "https://cdn.example.com/" = some "cdn.example.com" ∧
    ((getServerName envAkamai [] "https://cdn.example.com/" 200 []).res ≠ none ∧
     (earlierRulesFallThrough (lowerHeadersOf []) "cdn.example.com" →
      (((resolveIp envAkamai "https://cdn.example.com/" []).ip = none →
        (getServerName envAkamai [] "https://cdn.example.com/" 200 []).res
          = some ServerType.UNKNOWN) ∧
       (isAkamaiIp (resolveIp envAkamai "https://cdn.example.com/" []).ip = true →
        missMarker (xCacheOf (lowerHeadersOf [])) = false →
        (getServerName envAkamai [] "https://cdn.example.com/" 200 []).res
          = some ServerType.AKAMAI)))) :=
  ⟨rfl, c10_ip_fallback envAkamai [] "https://cdn.example.com/" 200 [] "cdn.example.com" rfl⟩

/-- Pointwise description of the `promiseAllIndexed` fold: after processing
the settlement order, slot `i` holds the result of promise `i` exactly when
promise `i` settled and is in range, and is untouched otherwise. -/
theorem promiseAllIndexed_foldl_getElem? (results : List AnalysisResult) (order : List Nat)
    (acc : List (Option AnalysisResult)) (hacc : acc.length = results.length) (i : Nat) :
    (order.foldl (fun acc j =>
      match results[j]? with
      | some r => acc.set j (some r)
      | none => acc) acc)[i]? =
    if i ∈ order ∧ i < results.length then results[i]?.map some else acc[i]? := by
  induction order generalizing acc with
  | nil => simp
  | cons j rest ih =>
      have hstep : (match results[j]? with
          | some r => acc.set j (some r)
          | none => acc).length = results.length := by
        cases hr : results[j]? <;> simp [hr, hacc]
      rw [List.foldl_cons, ih _ hstep]
      by_cases hmem : i ∈ rest
      · have hm2 : i ∈ j :: rest := List.mem_cons_of_mem _ hmem
        by_cases hlt : i < results.length
        · simp [hmem, hm2, hlt]
        · have h1 : (match results[j]? with
              | some r => acc.set j (some r)
              | none => acc)[i]? = none := List.getElem?_eq_none (by rw [hstep]; omega)
          have h2 : acc[i]? = none := List.getElem?_eq_none (by omega)
          simp [hmem, hm2, hlt, h1, h2]
      · by_cases hij : i = j
        · subst hij
          by_cases hlt : i < results.length
          · obtain ⟨r, hr⟩ : ∃ r, results[i]? = some r :=
              ⟨results[i], List.getElem?_eq_getElem hlt⟩
            have hm3 : i ∈ i :: rest := List.mem_cons_self _ _
            simp only [hmem, false_and, if_false, hr, hm3, hlt, and_self, if_true]
            rw [List.getElem?_set_self (by omega)]
            simp [hr]
          · have hr : results[i]? = none := List.getElem?_eq_none (by omega)
            simp [hmem, hlt, hr]
        · have hm3 : i ∉ j :: rest := by
            intro hx
            rcases List.mem_cons.mp hx with h | h
            · exact hij h
            · exact hmem h
          simp only [hm3, false_and, if_false, hmem]
          cases hr : results[j]? with
          | none => simp
          | some r => exact List.getElem?_set_ne (fun hxx => hij hxx.symm)

/-- Settlement in any completion order that is a permutation of the window's
indices fills every slot with its own promise's result: `Promise.all` hands
back the window's results in input order. -/
theorem promiseAllIndexed_perm (results : List AnalysisResult) (order : List Nat)
    (h : order.Perm (List.range results.length)) :
    promiseAllIndexed results order = results.map some := by
  apply List.ext_getElem?
  intro i
  unfold promiseAllIndexed
  rw [promiseAllIndexed_foldl_getElem? _ _ _ (by simp) i]
  by_cases hlt : i < results.length
  · have hmem : i ∈ order := h.mem_iff.mpr (List.mem_range.mpr hlt)
    simp [hmem, hlt, List.getElem?_map]
  · have hnm : i ∉ order := fun hm => hlt (List.mem_range.mp (h.mem_iff.mp hm))
    simp [hnm, hlt, List.getElem?_eq_none (show results.length ≤ i by omega),
      List.getElem?_eq_none (show (results.map some).length ≤ i by simp; omega),
      List.getElem?_eq_none
        (show (List.replicate results.length (none : Option AnalysisResult)).length ≤ i by
          simp; omega)]

/-- Every exit path of `fetchUrlWithPlaywright` reports the URL it was asked
to analyze as `originalURL`. -/
theorem fetchUrlWithPlaywright_originalURL (url : String) (o : NavOutcome) (t : Nat) :
    (fetchUrlWithPlaywright url o t).result.originalURL = url := by
  cases o <;> rfl

/-- The batch loop is the identity modulo per-URL navigation: whatever the
per-window completion orders, the collected result list is the input list
mapped through the navigation function, in input order. -/
theorem runBatches_eq_map (nav : String → AnalysisResult) (orders : List String → List Nat)
    (h : ∀ w : List String, (orders w).Perm (List.range w.length)) :
    ∀ (n : Nat) (urls : List String), urls.length ≤ n →
      runBatches nav orders urls = urls.map (fun u => some (nav u)) := by
  intro n
  induction n with
  | zero =>
      intro urls hlen
      have hnil : urls = [] := List.eq_nil_of_length_eq_zero (Nat.le_zero.mp hlen)
      subst hnil
      rw [runBatches]
      simp
  | succ n ih =>
      intro urls hlen
      by_cases hnil : urls = []
      · subst hnil
        rw [runBatches]
        simp
      · rw [runBatches]
        simp only [hnil, dite_false]
        have hperm : (orders (urls.take BATCH_SIZE)).Perm
            (List.range ((urls.take BATCH_SIZE).map nav).length) := by
          simpa using h (urls.take BATCH_SIZE)
        rw [promiseAllIndexed_perm _ _ hperm]
        have hlen' : (urls.drop BATCH_SIZE).length ≤ n := by
          have : urls.length ≠ 0 := fun h0 => hnil (List.eq_nil_of_length_eq_zero h0)
          simp only [List.length_drop, BATCH_SIZE]
          omega
        rw [ih (urls.drop BATCH_SIZE) hlen']
        rw [List.map_map]
        have hco : (some ∘ nav) = (fun u => some (nav u)) := rfl
        rw [hco, ← List.map_append, List.take_append_drop]

/-- C4.  For every input URL list, result `i` of the batch run carries
`originalURL` equal to input URL `i`: the output order equals the input order
for every choice of per-window completion orders, because each window
aggregates by original index. -/
theorem c4_results_in_input_order (outcomes : String → NavOutcome) (times : String → Nat)
    (orders : List String → List Nat) (urls : List String)
    (h : ∀ w : List String, (orders w).Perm (List.range w.length)) :
    (runBatches (fun u => (fetchUrlWithPlaywright u (outcomes u) (times u)).result)
        orders urls).map (Option.map AnalysisResult.originalURL) = urls.map some := by
  rw [runBatches_eq_map _ _ h urls.length urls le_rfl, List.map_map]
  apply List.map_congr_left
  intro u _
  simp [Function.comp, fetchUrlWithPlaywright_originalURL]

/-- C4 (witness).  Seven URLs, two windows, each window settling in reverse
order: the collected `originalURL` sequence is still the input sequence. -/
theorem c4_results_in_input_order_witness :
    (∀ w : List String, ((List.range w.length).reverse).Perm (List.range w.length)) ∧
    (runBatches
        (fun u =>
          (fetchUrlWithPlaywright u (NavOutcome.navigated [] "https://final.example/") 0).result)
        (fun w => (List.range w.length).reverse) urls7).map
      (Option.map AnalysisResult.originalURL) = urls7.map some :=
  ⟨fun w => (List.range w.length).reverse_perm,
    c4_results_in_input_order (fun _ => NavOutcome.navigated [] "https://final.example/")
      (fun _ => 0) (fun w => (List.range w.length).reverse) urls7
      (fun w => (List.range w.length).reverse_perm)⟩

/-- Unfolding of the batch-event trace on the empty list. -/
theorem scheduleEvents_nil : scheduleEvents [] = [] := by
  rw [scheduleEvents]
  simp

/-- Unfolding of the batch-event trace on a non-empty list: one window, then a
delay exactly when URLs remain. -/
theorem scheduleEvents_ne_nil (urls : List String) (h : urls ≠ []) :
    scheduleEvents urls = BatchEvent.window (urls.take BATCH_SIZE) ::
      (if BATCH_SIZE < urls.length then
        BatchEvent.delay DELAY_MS :: scheduleEvents (urls.drop BATCH_SIZE)
      else scheduleEvents (urls.drop BATCH_SIZE)) := by
  rw [scheduleEvents]
  simp [h]

/-- The window list of the trace of a non-empty input is the first slice
followed by the windows of the rest. -/
theorem windowsOf_scheduleEvents (urls : List String) (h : urls ≠ []) :
    windowsOf (scheduleEvents urls)
      = urls.take BATCH_SIZE :: windowsOf (scheduleEvents (urls.drop BATCH_SIZE)) := by
  rw [scheduleEvents_ne_nil urls h]
  by_cases h5 : BATCH_SIZE < urls.length <;> simp [h5, windowsOf]

/-- Concatenating the executed windows in order gives back the input list:
the windows are consecutive slices and every URL is scheduled exactly once. -/
theorem windowsOf_join : ∀ (n : Nat) (urls : List String), urls.length ≤ n →
    (windowsOf (scheduleEvents urls)).flatten = urls := by
  intro n
  induction n with
  | zero =>
      intro urls hlen
      have hnil : urls = [] := List.eq_nil_of_length_eq_zero (Nat.le_zero.mp hlen)
      subst hnil
      simp [scheduleEvents_nil, windowsOf]
  | succ n ih =>
      intro urls hlen
      by_cases hnil : urls = []
      · subst hnil; simp [scheduleEvents_nil, windowsOf]
      · rw [windowsOf_scheduleEvents urls hnil]
        have hlen' : (urls.drop BATCH_SIZE).length ≤ n := by
          have : urls.length ≠ 0 := fun h0 => hnil (List.eq_nil_of_length_eq_zero h0)
          simp only [List.length_drop, BATCH_SIZE]
          omega
        simp [ih (urls.drop BATCH_SIZE) hlen']

/-- The number of executed windows is the number of input URLs divided by the
window size, rounded up. -/
theorem windowsOf_length_eq : ∀ (n : Nat) (urls : List String), urls.length ≤ n →
    (windowsOf (scheduleEvents urls)).length
      = (urls.length + BATCH_SIZE - 1) / BATCH_SIZE := by
  intro n
  induction n with
  | zero =>
      intro urls hlen
      have hnil : urls = [] := List.eq_nil_of_length_eq_zero (Nat.le_zero.mp hlen)
      subst hnil
      simp [scheduleEvents_nil, windowsOf, BATCH_SIZE]
  | succ n ih =>
      intro urls hlen
      by_cases hnil : urls = []
      · subst hnil; simp [scheduleEvents_nil, windowsOf, BATCH_SIZE]
      · rw [windowsOf_scheduleEvents urls hnil]
        have hpos : urls.length ≠ 0 := fun h0 => hnil (List.eq_nil_of_length_eq_zero h0)
        have hlen' : (urls.drop BATCH_SIZE).length ≤ n := by
          simp only [List.length_drop, BATCH_SIZE]; omega
        rw [List.length_cons, ih (urls.drop BATCH_SIZE) hlen']
        simp only [List.length_drop, BATCH_SIZE]
        rcases Nat.lt_or_ge 5 urls.length with h5 | h5
        · have : urls.length + 5 - 1 = (urls.length - 5 + 5 - 1) + 5 := by omega
          rw [this, Nat.add_div_right _ (by omega)]
        · have h1 : urls.length - 5 + 5 - 1 = urls.length - 5 + 4 := by omega
          have h2 : (urls.length - 5 + 4) / 5 = 0 := Nat.div_eq_of_lt (by omega)
          have h3 : (urls.length + 5 - 1) / 5 = 1 := Nat.div_eq_of_lt_le (by omega) (by omega)
          rw [h1, h2, h3]

/-- A full window remains after the first slice exactly when more than
`BATCH_SIZE` URLs were left. -/
theorem drop_batch_ne_nil (urls : List String) (h5 : BATCH_SIZE < urls.length) :
    urls.drop BATCH_SIZE ≠ [] := by
  intro hd
  have hle : urls.length - BATCH_SIZE = 0 := by
    simpa using congrArg List.length hd
  omega

/-- Every executed window is non-empty and holds at most `BATCH_SIZE` URLs. -/
theorem windowsOf_sizes : ∀ (n : Nat) (urls : List String), urls.length ≤ n →
    ∀ w ∈ windowsOf (scheduleEvents urls), w ≠ [] ∧ w.length ≤ BATCH_SIZE := by
  intro n
  induction n with
  | zero =>
      intro urls hlen
      have hnil : urls = [] := List.eq_nil_of_length_eq_zero (Nat.le_zero.mp hlen)
      subst hnil
      simp [scheduleEvents_nil, windowsOf]
  | succ n ih =>
      intro urls hlen
      by_cases hnil : urls = []
      · subst hnil; simp [scheduleEvents_nil, windowsOf]
      · rw [windowsOf_scheduleEvents urls hnil]
        have hpos : urls.length ≠ 0 := fun h0 => hnil (List.eq_nil_of_length_eq_zero h0)
        have hlen' : (urls.drop BATCH_SIZE).length ≤ n := by
          simp only [List.length_drop, BATCH_SIZE]; omega
        intro w hw
        rcases List.mem_cons.mp hw with hw | hw
        · subst hw
          constructor
          · intro htake
            rcases urls with _ | ⟨u, us⟩
            · exact hnil rfl
            · simp [BATCH_SIZE] at htake
          · simp [BATCH_SIZE]
        · exact ih (urls.drop BATCH_SIZE) hlen' w hw

/-- A non-empty input produces at least one window. -/
theorem windowsOf_ne_nil (urls : List String) (h : urls ≠ []) :
    windowsOf (scheduleEvents urls) ≠ [] := by
  rw [windowsOf_scheduleEvents urls h]
  simp

/-- Every window except possibly the last is full: it holds exactly
`BATCH_SIZE` URLs. -/
theorem windowsOf_full : ∀ (n : Nat) (urls : List String), urls.length ≤ n →
    ∀ (i : Nat) (w : List String), i + 1 < (windowsOf (scheduleEvents urls)).length →
      (windowsOf (scheduleEvents urls))[i]? = some w → w.length = BATCH_SIZE := by
  intro n
  induction n with
  | zero =>
      intro urls hlen
      have hnil : urls = [] := List.eq_nil_of_length_eq_zero (Nat.le_zero.mp hlen)
      subst hnil
      simp [scheduleEvents_nil, windowsOf]
  | succ n ih =>
      intro urls hlen i w hi hget
      by_cases hnil : urls = []
      · subst hnil; simp [scheduleEvents_nil, windowsOf] at hget
      · rw [windowsOf_scheduleEvents urls hnil] at hi hget
        have hpos : urls.length ≠ 0 := fun h0 => hnil (List.eq_nil_of_length_eq_zero h0)
        have hlen' : (urls.drop BATCH_SIZE).length ≤ n := by
          simp only [List.length_drop, BATCH_SIZE]; omega
        cases i with
        | zero =>
            simp only [List.getElem?_cons_zero, Option.some.injEq] at hget
            subst hget
            have hrec : windowsOf (scheduleEvents (urls.drop BATCH_SIZE)) ≠ [] := by
              intro hempty
              rw [List.length_cons, hempty] at hi
              simp at hi
            have hdrop : urls.drop BATCH_SIZE ≠ [] := by
              intro hd
              exact hrec (by rw [hd, scheduleEvents_nil]; rfl)
            have : BATCH_SIZE < urls.length := by
              by_contra hle
              exact hdrop (List.drop_eq_nil_of_le (by omega))
            simp [List.length_take, BATCH_SIZE] at this ⊢
            omega
        | succ i =>
            simp only [List.getElem?_cons_succ] at hget
            rw [List.length_cons] at hi
            exact ih (urls.drop BATCH_SIZE) hlen' i w (by omega) hget

/-- The trace contains exactly one delay fewer than it contains windows. -/
theorem delayCount_scheduleEvents : ∀ (n : Nat) (urls : List String), urls.length ≤ n →
    delayCount (scheduleEvents urls) = (windowsOf (scheduleEvents urls)).length - 1 := by
  intro n
  induction n with
  | zero =>
      intro urls hlen
      have hnil : urls = [] := List.eq_nil_of_length_eq_zero (Nat.le_zero.mp hlen)
      subst hnil
      simp [scheduleEvents_nil, windowsOf, delayCount]
  | succ n ih =>
      intro urls hlen
      by_cases hnil : urls = []
      · subst hnil; simp [scheduleEvents_nil, windowsOf, delayCount]
      · have hpos : urls.length ≠ 0 := fun h0 => hnil (List.eq_nil_of_length_eq_zero h0)
        have hlen' : (urls.drop BATCH_SIZE).length ≤ n := by
          simp only [List.length_drop, BATCH_SIZE]; omega
        rw [windowsOf_scheduleEvents urls hnil, scheduleEvents_ne_nil urls hnil]
        by_cases h5 : BATCH_SIZE < urls.length
        · have hdrop : urls.drop BATCH_SIZE ≠ [] := drop_batch_ne_nil urls h5
          have hwnn : windowsOf (scheduleEvents (urls.drop BATCH_SIZE)) ≠ [] :=
            windowsOf_ne_nil _ hdrop
          have hw1 : 1 ≤ (windowsOf (scheduleEvents (urls.drop BATCH_SIZE))).length :=
            Nat.one_le_iff_ne_zero.mpr (fun h0 => hwnn (List.eq_nil_of_length_eq_zero h0))
          simp only [h5, if_true, delayCount, List.countP_cons, List.length_cons]
          have := ih (urls.drop BATCH_SIZE) hlen'
          simp only [delayCount] at this
          rw [this]
          simp
          omega
        · have hdrop : urls.drop BATCH_SIZE = [] := List.drop_eq_nil_of_le (by omega)
          simp [h5, hdrop, scheduleEvents_nil, delayCount, windowsOf]

/-- The trace is exactly the executed windows with one delay interspersed
between each pair of consecutive windows and none after the last. -/
theorem scheduleEvents_intersperse : ∀ (n : Nat) (urls : List String), urls.length ≤ n →
    scheduleEvents urls = List.intersperse (BatchEvent.delay DELAY_MS)
      ((windowsOf (scheduleEvents urls)).map BatchEvent.window) := by
  intro n
  induction n with
  | zero =>
      intro urls hlen
      have hnil : urls = [] := List.eq_nil_of_length_eq_zero (Nat.le_zero.mp hlen)
      subst hnil
      simp [scheduleEvents_nil, windowsOf]
  | succ n ih =>
      intro urls hlen
      by_cases hnil : urls = []
      · subst hnil; simp [scheduleEvents_nil, windowsOf]
      · have hpos : urls.length ≠ 0 := fun h0 => hnil (List.eq_nil_of_length_eq_zero h0)
        have hlen' : (urls.drop BATCH_SIZE).length ≤ n := by
          simp only [List.length_drop, BATCH_SIZE]; omega
        rw [windowsOf_scheduleEvents urls hnil]
        by_cases h5 : BATCH_SIZE < urls.length
        · have hdrop : urls.drop BATCH_SIZE ≠ [] := drop_batch_ne_nil urls h5
          obtain ⟨w0, ws, hws⟩ : ∃ w0 ws,
              windowsOf (scheduleEvents (urls.drop BATCH_SIZE)) = w0 :: ws := by
            cases hw : windowsOf (scheduleEvents (urls.drop BATCH_SIZE)) with
            | nil => exact absurd hw (windowsOf_ne_nil _ hdrop)
            | cons a l => exact ⟨a, l, rfl⟩
          rw [scheduleEvents_ne_nil urls hnil]
          simp only [h5, if_true, hws, List.map_cons, List.intersperse_cons_cons]
          have := ih (urls.drop BATCH_SIZE) hlen'
          rw [hws] at this
          simp only [List.map_cons] at this
          rw [this]
        · have hdrop : urls.drop BATCH_SIZE = [] := List.drop_eq_nil_of_le (by omega)
          rw [scheduleEvents_ne_nil urls hnil]
          simp [h5, hdrop, scheduleEvents_nil, windowsOf]

/-- C5.  The batch loop partitions the input into ceil(N / BATCH_SIZE)
consecutive windows of at most `BATCH_SIZE` URLs each, all full except
possibly the last; the windows concatenate back to the input (each completes
before the next starts), and the trace is the windows with the fixed delay
inserted exactly once between consecutive windows and never after the last. -/
theorem c5_windowing (urls : List String) :
    (windowsOf (scheduleEvents urls)).flatten = urls ∧
    (windowsOf (scheduleEvents urls)).length = (urls.length + BATCH_SIZE - 1) / BATCH_SIZE ∧
    (∀ w ∈ windowsOf (scheduleEvents urls), w ≠ [] ∧ w.length ≤ BATCH_SIZE) ∧
    (∀ (i : Nat) (w : List String), i + 1 < (windowsOf (scheduleEvents urls)).length →
      (windowsOf (scheduleEvents urls))[i]? = some w → w.length = BATCH_SIZE) ∧
    delayCount (scheduleEvents urls) = (windowsOf (scheduleEvents urls)).length - 1 ∧
    scheduleEvents urls = List.intersperse (BatchEvent.delay DELAY_MS)
      ((windowsOf (scheduleEvents urls)).map BatchEvent.window) :=
  ⟨windowsOf_join urls.length urls le_rfl,
    windowsOf_length_eq urls.length urls le_rfl,
    windowsOf_sizes urls.length urls le_rfl,
    windowsOf_full urls.length urls le_rfl,
    delayCount_scheduleEvents urls.length urls le_rfl,
    scheduleEvents_intersperse urls.length urls le_rfl⟩

/-- Evaluated trace of the concrete scenario D: seven URLs run as a window of
five, one delay, and a window of two. -/
theorem scheduleEvents_urls7 :
    scheduleEvents urls7 = [BatchEvent.window (urls7.take BATCH_SIZE),
      BatchEvent.delay DELAY_MS, BatchEvent.window (urls7.drop BATCH_SIZE)] := by
  rw [scheduleEvents_ne_nil urls7 (by simp [urls7])]
  rw [if_pos (by simp [BATCH_SIZE, urls7])]
  rw [scheduleEvents_ne_nil (urls7.drop BATCH_SIZE) (by simp [urls7, BATCH_SIZE])]
  rw [if_neg (by simp [BATCH_SIZE, urls7])]
  rw [show (urls7.drop BATCH_SIZE).drop BATCH_SIZE = [] from rfl, scheduleEvents_nil]
  rw [show (urls7.drop BATCH_SIZE).take BATCH_SIZE = urls7.drop BATCH_SIZE from rfl]

/-- C5 (witness).  Scenario D concretely: 7 URLs, two windows of sizes 5 and
2, the delay observed once (and not after the last window), assembled from
`c5_windowing` at `urls7`. -/
theorem c5_windowing_witness :
    scheduleEvents urls7 = [BatchEvent.window (urls7.take BATCH_SIZE),
      BatchEvent.delay DELAY_MS, BatchEvent.window (urls7.drop BATCH_SIZE)] ∧
    (urls7.take BATCH_SIZE).length = 5 ∧
    (urls7.drop BATCH_SIZE).length = 2 ∧
    (windowsOf (scheduleEvents urls7)).length = 2 ∧
    delayCount (scheduleEvents urls7) = 1 ∧
    (windowsOf (scheduleEvents urls7)).flatten = urls7 :=
  ⟨scheduleEvents_urls7, by decide, by decide,
    by rw [scheduleEvents_urls7]; rfl,
    by rw [scheduleEvents_urls7]; rfl,
    (c5_windowing urls7).1⟩
